import Mathlib

/-!
# LibQGit2 binding layer: `Signature` (src/signature.cpp) and `Index` (src/index.h)

Shallow embedding of the wrapper classes.  Native pointers are addresses
(`none` is the null pointer), every call into the native library is recorded
in a call log, and the answers of the native library are parameters.
-/

namespace LibQGit2

/-! ## Toolkit value types used by the constructor arguments -/

/-- `QString`: a sequence of UTF-16 code units. -/
abbrev QString := List Nat

/-- `QByteArray`: a sequence of 8-bit characters. -/
abbrev QByteArray := List Nat

/-- `QDateTime` (a valid one), as milliseconds since 1970-01-01T00:00:00 UTC. -/
structure QDateTime where
  msecsSinceEpoch : Int
  deriving DecidableEq, Repr

/-- `QString::toAscii()` when no C-string codec is installed: the Latin-1
conversion, where a code unit above 0xFF is replaced by a question mark. -/
def QString.toAscii (s : QString) : QByteArray :=
  s.map (fun u => if u < 256 then u else 63)

/-- `QByteArray::data()` read as the C string a `const char *` parameter
receives: the characters before the first NUL. -/
def QByteArray.data (b : QByteArray) : List Nat :=
  b.takeWhile (fun c => c != 0)

/-- `QDateTime::toTime_t()`: whole seconds since the epoch as an unsigned
32-bit value, and `(uint)-1` when that number is negative or does not fit. -/
def QDateTime.toTime_t (d : QDateTime) : Nat :=
  let retval := Int.tdiv d.msecsSinceEpoch 1000
  if retval < 0 ∨ 0xFFFFFFFF ≤ retval then 0xFFFFFFFF else retval.toNat

/-! ## Native side -/

/-- `git_signature *`: a pointer through which the pointee may be written. -/
structure git_signature_ptr where
  addr : Option Nat
  deriving DecidableEq, Repr

/-- `const git_signature *`: a read-only pointer. -/
structure git_signature_cptr where
  addr : Option Nat
  deriving DecidableEq, Repr

/-- `const_cast<git_signature *>(p)`. -/
def const_cast (p : git_signature_cptr) : git_signature_ptr := ⟨p.addr⟩

/-- `const_cast<const git_signature *>(p)`. -/
def const_cast_const (p : git_signature_ptr) : git_signature_cptr := ⟨p.addr⟩

/-- One call from the wrapper into the native library, with the argument
values it was handed. -/
inductive NativeCall where
  | git_signature_new (name email : List Nat) (time : Nat) (offset : Int)
  | git_signature_free (sig : git_signature_ptr)
  deriving DecidableEq, Repr

/-- The native `git_signature_new`: its answer may depend on the calls made so
far (it allocates) and on the four arguments. -/
abbrev SignatureNew := List NativeCall → List Nat → List Nat → Nat → Int → git_signature_ptr

/-! ## `class Signature` -/

/-- The wrapper object: its only member is `m_signature`. -/
structure Signature where
  m_signature : git_signature_ptr
  deriving DecidableEq, Repr

/-- `Signature::Signature(const QString&, const QString&, QDateTime, int, QObject*)`
(signature.cpp 24-27): one call of `git_signature_new`, whose answer is stored. -/
def Signature.fromComponents (lib : SignatureNew) (name email : QString) (dateTime : QDateTime)
    (offset : Int) (calls : List NativeCall) : Signature × List NativeCall :=
  let n := QByteArray.data (QString.toAscii name)
  let e := QByteArray.data (QString.toAscii email)
  let t := QDateTime.toTime_t dateTime
  (⟨lib calls n e t offset⟩, calls ++ [NativeCall.git_signature_new n e t offset])

/-- `Signature::Signature(const git_signature*, QObject*)` (signature.cpp 29-32):
the member initialiser stores the handle with its constness cast away. -/
def Signature.fromHandle (signature : git_signature_cptr) (calls : List NativeCall) :
    Signature × List NativeCall :=
  (⟨const_cast signature⟩, calls)

/-- `Signature::Signature(const Signature&)` (signature.cpp 34-37): the pointer
value of the other wrapper is assigned. -/
def Signature.copy (other : Signature) (calls : List NativeCall) : Signature × List NativeCall :=
  (⟨other.m_signature⟩, calls)

/-- `Signature::~Signature()` (signature.cpp 39-42): `git_signature_free(m_signature)`. -/
def Signature.destroy (self : Signature) (calls : List NativeCall) : List NativeCall :=
  calls ++ [NativeCall.git_signature_free self.m_signature]

/-- `git_signature* Signature::data() const` (signature.cpp 44-47). -/
def Signature.data (self : Signature) : git_signature_ptr :=
  self.m_signature

/-- `const git_signature* Signature::constData() const` (signature.cpp 49-52). -/
def Signature.constData (self : Signature) : git_signature_cptr :=
  const_cast_const self.m_signature

/-- Number of times the handle `h` was passed to `git_signature_free`. -/
def releaseCount (h : git_signature_ptr) (calls : List NativeCall) : Nat :=
  calls.count (NativeCall.git_signature_free h)

/-- The handles passed to `git_signature_free`, in call order. -/
def released : List NativeCall → List git_signature_ptr
  | [] => []
  | NativeCall.git_signature_free h :: cs => h :: released cs
  | NativeCall.git_signature_new _ _ _ _ :: cs => released cs

/-! ## Programs over wrappers -/

/-- One statement of a client program. -/
inductive Op where
  | construct (name email : QString) (dateTime : QDateTime) (offset : Int)
  | adopt (signature : git_signature_cptr)
  | copy (i : Nat)
  | destroy (i : Nat)
  deriving DecidableEq, Repr

/-- The live wrapper instances and the native calls made so far. -/
structure Machine where
  live : List Signature
  calls : List NativeCall
  deriving DecidableEq, Repr

/-- Execute one statement; `copy i` and `destroy i` address the i-th live
wrapper and do nothing when there is none. -/
def step (lib : SignatureNew) (m : Machine) : Op → Machine
  | Op.construct name email dateTime offset =>
      let r := Signature.fromComponents lib name email dateTime offset m.calls
      ⟨m.live ++ [r.1], r.2⟩
  | Op.adopt signature =>
      let r := Signature.fromHandle signature m.calls
      ⟨m.live ++ [r.1], r.2⟩
  | Op.copy i =>
      match m.live[i]? with
      | some s =>
          let r := Signature.copy s m.calls
          ⟨m.live ++ [r.1], r.2⟩
      | none => m
  | Op.destroy i =>
      match m.live[i]? with
      | some s => ⟨m.live.eraseIdx i, Signature.destroy s m.calls⟩
      | none => m

/-- Execute a program from the empty machine. -/
def run (lib : SignatureNew) (ops : List Op) : Machine :=
  ops.foldl (step lib) ⟨[], []⟩

/-! ## The native heap and the public interface of a wrapper -/

/-- The native `git_signature` record: name, email, timestamp, UTC offset. -/
structure git_signature where
  name : List Nat
  email : List Nat
  time : Nat
  offset : Int
  deriving DecidableEq, Repr

/-- The native heap: the signature stored at each allocated address. -/
abbrev Heap := Nat → Option git_signature

/-- Read the pointee of a read-only pointer; nothing behind a null or
unallocated address. -/
def Heap.load (heap : Heap) (p : git_signature_cptr) : Option git_signature :=
  match p.addr with
  | some a => heap a
  | none => none

/-- The assignment `*p = v`, which C++ accepts for a `git_signature *` only;
the heap is left alone when `p` is null or points at nothing allocated. -/
def Heap.store (heap : Heap) (p : git_signature_ptr) (v : git_signature) : Heap :=
  match p.addr with
  | some a => if (heap a).isSome then fun x => if x = a then some v else heap x else heap
  | none => heap

/-- The public methods of `Signature`. -/
inductive Method where
  | data
  | constData
  deriving DecidableEq, Repr

/-- What a public method hands back to the caller. -/
inductive Returned where
  | ptr (p : git_signature_ptr)
  | cptr (p : git_signature_cptr)
  deriving DecidableEq, Repr

/-- The address inside a returned pointer. -/
def Returned.addr : Returned → Option Nat
  | Returned.ptr p => p.addr
  | Returned.cptr p => p.addr

/-- One public method call on a wrapper, with the wrapper and the native heap
threaded through; both bodies are a single `return`. -/
def Signature.call (self : Signature) (heap : Heap) : Method → Returned × Signature × Heap
  | Method.data => (Returned.ptr (Signature.data self), self, heap)
  | Method.constData => (Returned.cptr (Signature.constData self), self, heap)

/-- A sequence of public method calls on one wrapper. -/
def Signature.callAll (self : Signature) (heap : Heap) :
    List Method → List Returned × Signature × Heap
  | [] => ([], self, heap)
  | m :: ms =>
      let r := Signature.call self heap m
      let rest := Signature.callAll r.2.1 r.2.2 ms
      (r.1 :: rest.1, rest.2)

/-! ## `class Index` (declared in src/index.h; its method bodies are not part of the sources) -/

/-- Modelled from the spec: the not-ready status `GIT_EBAREINDEX` named by
index.h; the header that defines it is not among the sources, the native
library numbers it `GIT_ERROR - 14`. -/
def GIT_EBAREINDEX : Int := -15

/-- Modelled from the spec: an index entry, a file path with its conflict stage
and content hash (the native `git_index_entry` is not among the sources). -/
structure git_index_entry where
  path : String
  stage : Int
  oid : Nat
  deriving DecidableEq, Repr

/-- Modelled from the spec: the state behind `m_index`, namely whether an object
database is bound and the positionally addressed entries (index.cpp is not
among the sources). -/
structure Index where
  odb : Bool
  entries : List git_index_entry
  deriving DecidableEq, Repr

/-- Modelled from the spec: `Index::Index(const QString&, QObject*)`, an index
over a standalone file with no repository and hence no object database. -/
def Index.fromPath (_indexPath : String) : Index :=
  ⟨false, []⟩

/-- Modelled from the spec: `Index::entryCount`, the current number of entries. -/
def Index.entryCount (self : Index) : Nat :=
  self.entries.length

/-- Modelled from the spec: position of the first entry with the given path. -/
def firstWithPath (path : String) : List git_index_entry → Option Nat
  | [] => none
  | x :: xs => if x.path = path then some 0 else (firstWithPath path xs).map (· + 1)

/-- Modelled from the spec: `Index::find`, the position of the first entry
matching `path`, or -1 if absent. -/
def Index.find (self : Index) (path : String) : Int :=
  match firstWithPath path self.entries with
  | some i => (i : Int)
  | none => -1

/-- Modelled from the spec: `Index::get`, the n-th entry, or null if `n` is
out of bounds. -/
def Index.get (self : Index) (n : Int) : Option git_index_entry :=
  if n < 0 then none else self.entries[n.toNat]?

/-- Modelled from the spec: overwrite in place the first entry that has the
path of `e`. -/
def overwriteEntry (e : git_index_entry) : List git_index_entry → List git_index_entry
  | [] => []
  | x :: xs => if x.path = e.path then e :: xs else x :: overwriteEntry e xs

/-- Modelled from the spec: insert `e` at the point the path order gives. -/
def insertSorted (e : git_index_entry) : List git_index_entry → List git_index_entry
  | [] => [e]
  | x :: xs => if e.path < x.path then e :: x :: xs else x :: insertSorted e xs

/-- Modelled from the spec: `Index::insert`, a copy of the entry overwrites the
entry with the same path if there is one and is otherwise inserted in path
order; the status is returned with the new state. -/
def Index.insert (self : Index) (source_entry : git_index_entry) : Int × Index :=
  if (firstWithPath source_entry.path self.entries).isSome then
    (0, { self with entries := overwriteEntry source_entry self.entries })
  else
    (0, { self with entries := insertSorted source_entry self.entries })

/-- Modelled from the spec: `Index::add`.  Without an object database it fails
with the not-ready code and changes nothing; otherwise the file is read and
hashed (`hashFile`, which may fail with a status of its own) and the entry for
that path and stage is inserted or updated. -/
def Index.add (hashFile : String → Except Int Nat) (self : Index) (path : String)
    (stage : Int) : Int × Index :=
  if self.odb = false then (GIT_EBAREINDEX, self)
  else
    match hashFile path with
    | Except.error code => (code, self)
    | Except.ok oid =>
        let e : git_index_entry := ⟨path, stage, oid⟩
        if self.entries.any (fun x => x.path = path ∧ x.stage = stage) then
          (0, { self with entries :=
            self.entries.map (fun x => if x.path = path ∧ x.stage = stage then e else x) })
        else
          (0, { self with entries := insertSorted e self.entries })

/-- A name or email that the commit-object text encoding cannot carry: empty,
or containing an angle bracket or a newline. -/
def malformed (s : QString) : Bool :=
  s.isEmpty || s.any (fun u => u == 60 || u == 62 || u == 10)

/-! ## Auxiliary facts -/

theorem toAscii_of_latin1 (s : QString) (h : ∀ u ∈ s, 0 < u ∧ u < 256) :
    QString.toAscii s = s := by
  induction s with
  | nil => rfl
  | cons a t ih =>
      have ha := h a (List.mem_cons_self a t)
      have ht : ∀ u ∈ t, 0 < u ∧ u < 256 := fun u hu => h u (List.mem_cons_of_mem a hu)
      have ih' := ih ht
      unfold QString.toAscii at ih' ⊢
      simp only [List.map_cons, ha.2, if_true, ih']

theorem data_of_no_nul (b : QByteArray) (h : ∀ u ∈ b, 0 < u ∧ u < 256) :
    QByteArray.data b = b := by
  induction b with
  | nil => rfl
  | cons a t ih =>
      have ha := h a (List.mem_cons_self a t)
      have ht : ∀ u ∈ t, 0 < u ∧ u < 256 := fun u hu => h u (List.mem_cons_of_mem a hu)
      have ih' := ih ht
      have hne : (a != 0) = true := by
        simp only [bne_iff_ne, ne_eq]
        omega
      unfold QByteArray.data at ih' ⊢
      simp only [List.takeWhile_cons, hne, if_true, ih']

theorem toTime_t_of_seconds (secs : Nat) (h : secs < 0xFFFFFFFF) :
    QDateTime.toTime_t ⟨1000 * (secs : Int)⟩ = secs := by
  unfold QDateTime.toTime_t
  have hdiv : Int.tdiv (1000 * (secs : Int)) 1000 = (secs : Int) := by
    rw [Int.tdiv_eq_ediv (by omega) (by omega)]
    omega
  simp only [hdiv]
  have h1 : ¬ ((secs : Int) < 0 ∨ (0xFFFFFFFF : Int) ≤ (secs : Int)) := by omega
  rw [if_neg h1]
  exact Int.toNat_natCast secs

theorem releaseCount_append (h : git_signature_ptr) (xs ys : List NativeCall) :
    releaseCount h (xs ++ ys) = releaseCount h xs + releaseCount h ys := by
  unfold releaseCount
  exact List.count_append _ _ _

theorem released_append (xs ys : List NativeCall) :
    released (xs ++ ys) = released xs ++ released ys := by
  induction xs with
  | nil => rfl
  | cons c cs ih =>
      cases c with
      | git_signature_new n e t o => simpa [released] using ih
      | git_signature_free g => simp [released, ih]

theorem releaseCount_free (h g : git_signature_ptr) :
    releaseCount h [NativeCall.git_signature_free g] = if h = g then 1 else 0 := by
  unfold releaseCount
  by_cases hg : h = g
  · subst hg
    simp
  · have : NativeCall.git_signature_free g ≠ NativeCall.git_signature_free h := by
      intro hc
      injection hc with hc
      exact hg hc.symm
    simp [hg, List.count_cons, this]

theorem callAll_frame (ms : List Method) (self : Signature) (heap : Heap) :
    (Signature.callAll self heap ms).2 = (self, heap) ∧
      ∀ r ∈ (Signature.callAll self heap ms).1, Returned.addr r = self.m_signature.addr := by
  induction ms with
  | nil => exact ⟨rfl, by intro r hr; cases hr⟩
  | cons m ms ih =>
      cases m <;>
      · refine ⟨ih.1, ?_⟩
        intro r hr
        rcases List.mem_cons.mp hr with h | h
        · subst h
          rfl
        · exact ih.2 r h

theorem firstWithPath_overwrite (e : git_index_entry) (l : List git_index_entry) (i : Nat)
    (h : firstWithPath e.path l = some i) :
    firstWithPath e.path (overwriteEntry e l) = some i ∧ (overwriteEntry e l)[i]? = some e := by
  induction l generalizing i with
  | nil => simp [firstWithPath] at h
  | cons x xs ih =>
      by_cases hx : x.path = e.path
      · simp only [firstWithPath, hx, if_true, Option.some.injEq] at h
        subst h
        simp [overwriteEntry, hx, firstWithPath]
      · simp only [firstWithPath, hx, if_false, Option.map_eq_some'] at h
        obtain ⟨j, hj, rfl⟩ := h
        have := ih j hj
        simp [overwriteEntry, hx, firstWithPath, this.1, this.2]

theorem firstWithPath_insertSorted (e : git_index_entry) (l : List git_index_entry)
    (h : firstWithPath e.path l = none) :
    ∃ i, firstWithPath e.path (insertSorted e l) = some i ∧ (insertSorted e l)[i]? = some e := by
  induction l with
  | nil => exact ⟨0, by simp [insertSorted, firstWithPath]⟩
  | cons x xs ih =>
      by_cases hx : x.path = e.path
      · simp [firstWithPath, hx] at h
      · have hxs : firstWithPath e.path xs = none := by
          simpa [firstWithPath, hx] using h
        by_cases hlt : e.path < x.path
        · exact ⟨0, by simp [insertSorted, hlt, firstWithPath]⟩
        · obtain ⟨j, hj1, hj2⟩ := ih hxs
          exact ⟨j + 1, by simp [insertSorted, hlt, firstWithPath, hx, hj1, hj2]⟩

theorem firstWithPath_absent (path : String) (l : List git_index_entry)
    (h : ∀ x ∈ l, x.path ≠ path) : firstWithPath path l = none := by
  induction l with
  | nil => rfl
  | cons x xs ih =>
      have hx : x.path ≠ path := h x (List.mem_cons_self x xs)
      have := ih (fun y hy => h y (List.mem_cons_of_mem x hy))
      simp [firstWithPath, hx, this]

theorem insert_found (idx : Index) (e : git_index_entry) :
    ∃ i, firstWithPath e.path (Index.insert idx e).2.entries = some i ∧
      (Index.insert idx e).2.entries[i]? = some e := by
  unfold Index.insert
  cases hf : firstWithPath e.path idx.entries with
  | none =>
      simpa using firstWithPath_insertSorted e idx.entries hf
  | some i =>
      exact ⟨i, by simpa using firstWithPath_overwrite e idx.entries i hf⟩

/-! ## The claims -/

/-- C1: evaluation of the code at the failing input.  A wrapper adopts the
handle at address 1, is copied, and both instances are destroyed: the handle
has then been passed to `git_signature_free` twice, whatever the native
library answers, so the release count exceeds the bound 1 of the claim. -/
theorem C1_copy_then_destroy_releases_twice (lib : SignatureNew) :
    releaseCount ⟨some 1⟩
        (run lib [Op.adopt ⟨some 1⟩, Op.copy 0, Op.destroy 0, Op.destroy 0]).calls = 2 ∧
      ¬ (∀ (ops : List Op) (h : git_signature_ptr), releaseCount h (run lib ops).calls ≤ 1) := by
  have h2 : releaseCount ⟨some 1⟩
      (run lib [Op.adopt ⟨some 1⟩, Op.copy 0, Op.destroy 0, Op.destroy 0]).calls = 2 := by
    rfl
  refine ⟨h2, ?_⟩
  intro hall
  have := hall [Op.adopt ⟨some 1⟩, Op.copy 0, Op.destroy 0, Op.destroy 0] ⟨some 1⟩
  omega

/-- C2: destroying a wrapper appends exactly one native call to the call log,
`git_signature_free` on the handle `data()` held at that moment; the list of
released handles grows by that one handle, and the release count of every other
handle is unchanged. -/
theorem C2_destroy_releases_exactly_once (w : Signature) (calls : List NativeCall) :
    Signature.destroy w calls = calls ++ [NativeCall.git_signature_free (Signature.data w)] ∧
      released (Signature.destroy w calls) = released calls ++ [Signature.data w] ∧
      ∀ h : git_signature_ptr,
        releaseCount h (Signature.destroy w calls) =
          releaseCount h calls + (if h = Signature.data w then 1 else 0) := by
  refine ⟨rfl, ?_, ?_⟩
  · unfold Signature.destroy Signature.data
    rw [released_append]
    rfl
  · intro h
    unfold Signature.destroy Signature.data
    rw [releaseCount_append, releaseCount_free]

/-- C3: the copy of a wrapper holds the same handle value as the original and
is built without any native call, and destroying the original and the copy
passes that one handle to `git_signature_free` twice. -/
theorem C3_copy_aliases_handle (s : Signature) (calls : List NativeCall) :
    Signature.data (Signature.copy s calls).1 = Signature.data s ∧
      (Signature.copy s calls).2 = calls ∧
      releaseCount (Signature.data s)
          (Signature.destroy (Signature.copy s calls).1 (Signature.destroy s calls)) =
        releaseCount (Signature.data s) calls + 2 := by
  refine ⟨rfl, rfl, ?_⟩
  unfold Signature.destroy Signature.copy Signature.data
  rw [releaseCount_append, releaseCount_append, releaseCount_free]
  simp

/-- C4: adoption stores the given handle, null included, as it is: `data()` is
the handle with its constness cast away, `constData()` is the handle, both hold
its address, and the call log is unchanged (no native call is made). -/
theorem C4_adopt_stores_handle (h : git_signature_cptr) (calls : List NativeCall) :
    Signature.data (Signature.fromHandle h calls).1 = const_cast h ∧
      (Signature.data (Signature.fromHandle h calls).1).addr = h.addr ∧
      Signature.constData (Signature.fromHandle h calls).1 = h ∧
      (Signature.fromHandle h calls).2 = calls :=
  ⟨rfl, rfl, rfl, rfl⟩

/-- C5: when the native `git_signature_new` answers null for the values the
component constructor hands it, the constructor still returns a wrapper, whose
`data()` and `constData()` are null, and its only native call is that one
`git_signature_new` (nothing is read through the returned handle). -/
theorem C5_null_from_native_gives_invalid_wrapper (lib : SignatureNew) (name email : QString)
    (dateTime : QDateTime) (offset : Int) (calls : List NativeCall)
    (hnull : lib calls (QByteArray.data (QString.toAscii name))
      (QByteArray.data (QString.toAscii email)) (QDateTime.toTime_t dateTime) offset = ⟨none⟩) :
    Signature.data (Signature.fromComponents lib name email dateTime offset calls).1 = ⟨none⟩ ∧
      Signature.constData (Signature.fromComponents lib name email dateTime offset calls).1
        = ⟨none⟩ ∧
      (Signature.fromComponents lib name email dateTime offset calls).2 =
        calls ++ [NativeCall.git_signature_new (QByteArray.data (QString.toAscii name))
          (QByteArray.data (QString.toAscii email)) (QDateTime.toTime_t dateTime) offset] := by
  refine ⟨?_, ?_, rfl⟩
  · unfold Signature.data Signature.fromComponents
    simp only [hnull]
  · unfold Signature.constData Signature.fromComponents const_cast_const
    simp only [hnull]

/-- Witness for C5: a native library that answers null to every request. -/
theorem C5_null_from_native_gives_invalid_wrapper_witness :
    Signature.data (Signature.fromComponents (fun _ _ _ _ _ => ⟨none⟩) [97] [98] ⟨0⟩ 60 []).1
        = ⟨none⟩ ∧
      Signature.constData
        (Signature.fromComponents (fun _ _ _ _ _ => ⟨none⟩) [97] [98] ⟨0⟩ 60 []).1 = ⟨none⟩ ∧
      (Signature.fromComponents (fun _ _ _ _ _ => ⟨none⟩) [97] [98] ⟨0⟩ 60 []).2 =
        [] ++ [NativeCall.git_signature_new (QByteArray.data (QString.toAscii [97]))
          (QByteArray.data (QString.toAscii [98])) (QDateTime.toTime_t ⟨0⟩) 60] :=
  C5_null_from_native_gives_invalid_wrapper (fun _ _ _ _ _ => ⟨none⟩) [97] [98] ⟨0⟩ 60 [] rfl

/-- C6, counterexample: the constructor makes no check of its own.  With a
native library that accepts every request, an empty name and an email holding
an angle bracket yield a non-null handle; with one that refuses every request,
a well-formed name and email yield a null handle. -/
theorem C6_constructor_does_not_validate :
    (malformed [] = true ∧ malformed [60] = true ∧
      Signature.data (Signature.fromComponents (fun _ _ _ _ _ => ⟨some 1⟩) [] [60] ⟨0⟩ 0 []).1
        ≠ ⟨none⟩) ∧
    (malformed [97] = false ∧ malformed [98] = false ∧
      Signature.data (Signature.fromComponents (fun _ _ _ _ _ => ⟨none⟩) [97] [98] ⟨0⟩ 0 []).1
        = ⟨none⟩) := by
  decide

/-- C6, amended: for every name, email, date-time and offset, `data()` of the
constructed wrapper is exactly the handle the native `git_signature_new`
answers for the converted arguments; it is null exactly when that answer is
null, whether or not the name or email is malformed. -/
theorem C6_data_is_native_answer (lib : SignatureNew) (name email : QString)
    (dateTime : QDateTime) (offset : Int) (calls : List NativeCall) :
    Signature.data (Signature.fromComponents lib name email dateTime offset calls).1 =
        lib calls (QByteArray.data (QString.toAscii name))
          (QByteArray.data (QString.toAscii email)) (QDateTime.toTime_t dateTime) offset ∧
      (Signature.data (Signature.fromComponents lib name email dateTime offset calls).1
          = ⟨none⟩ ↔
        lib calls (QByteArray.data (QString.toAscii name))
          (QByteArray.data (QString.toAscii email)) (QDateTime.toTime_t dateTime) offset
          = ⟨none⟩) :=
  ⟨rfl, Iff.rfl⟩

/-- C7, counterexample: for the name U+4E2D and the date-time one second before
the epoch, the constructor hands `git_signature_new` the name "?" and the
timestamp 4294967295; and the two date-times 1.000 s and 1.500 s are handed
over as the same timestamp. -/
theorem C7_conversion_loses_information :
    (Signature.fromComponents (fun _ _ _ _ _ => ⟨some 1⟩) [0x4E2D] [97] ⟨-1000⟩ 0 []).2 =
        [NativeCall.git_signature_new [63] [97] 4294967295 0] ∧
      ([63] : List Nat) ≠ [0x4E2D] ∧
      (Signature.fromComponents (fun _ _ _ _ _ => ⟨some 1⟩) [97] [97] ⟨1500⟩ 0 []).2 =
        (Signature.fromComponents (fun _ _ _ _ _ => ⟨some 1⟩) [97] [97] ⟨1000⟩ 0 []).2 := by
  decide

/-- C7, amended: when every code unit of name and email lies in 1..255 and the
date-time is a whole number of seconds `secs` with `secs < 0xFFFFFFFF`, the
single native call of the constructor is `git_signature_new` with exactly the
original name, email, `secs` and offset. -/
theorem C7_handed_values_are_originals (lib : SignatureNew) (name email : QString)
    (secs : Nat) (offset : Int) (calls : List NativeCall)
    (hname : ∀ u ∈ name, 0 < u ∧ u < 256) (hemail : ∀ u ∈ email, 0 < u ∧ u < 256)
    (hsecs : secs < 0xFFFFFFFF) :
    (Signature.fromComponents lib name email ⟨1000 * (secs : Int)⟩ offset calls).2 =
      calls ++ [NativeCall.git_signature_new name email secs offset] := by
  unfold Signature.fromComponents
  simp only [toAscii_of_latin1 name hname, toAscii_of_latin1 email hemail,
    data_of_no_nul name hname, data_of_no_nul email hemail, toTime_t_of_seconds secs hsecs]

/-- Witness for C7, amended: name "Al", email "a@b", 86400 s, offset 60. -/
theorem C7_handed_values_are_originals_witness :
    (Signature.fromComponents (fun _ _ _ _ _ => ⟨some 1⟩) [65, 108] [97, 64, 98]
        ⟨1000 * ((86400 : Nat) : Int)⟩ 60 []).2 =
      [] ++ [NativeCall.git_signature_new [65, 108] [97, 64, 98] 86400 60] :=
  C7_handed_values_are_originals (fun _ _ _ _ _ => ⟨some 1⟩) [65, 108] [97, 64, 98] 86400 60 []
    (by decide) (by decide) (by decide)

/-- C8, counterexample: the pointer a caller obtains from `data()` is a
`git_signature *`; an assignment through it replaces the native signature
behind the wrapper, as a later read through `constData()` shows. -/
theorem C8_data_gives_mutable_access :
    Heap.load (fun a => if a = 1 then some ⟨[65], [97], 0, 0⟩ else none)
        (Signature.constData (Signature.fromHandle ⟨some 1⟩ []).1) = some ⟨[65], [97], 0, 0⟩ ∧
      Heap.load
        (Heap.store (fun a => if a = 1 then some ⟨[65], [97], 0, 0⟩ else none)
          (Signature.data (Signature.fromHandle ⟨some 1⟩ []).1) ⟨[66], [98], 1, 60⟩)
        (Signature.constData (Signature.fromHandle ⟨some 1⟩ []).1) = some ⟨[66], [98], 1, 60⟩ := by
  decide

/-- C8, amended: no sequence of calls to `data()` and `constData()` changes the
wrapper or the native heap, and every call returns the address the wrapper
holds; `constData()` returns a read-only pointer, while an assignment through
the pointer returned by `data()` to an allocated signature replaces it. -/
theorem C8_methods_leave_state_unchanged (w : Signature) (heap : Heap) (ms : List Method) :
    (Signature.callAll w heap ms).2 = (w, heap) ∧
      (∀ r ∈ (Signature.callAll w heap ms).1, Returned.addr r = (Signature.data w).addr) ∧
      (∀ (a : Nat) (v : git_signature), (Signature.data w).addr = some a →
        (heap a).isSome = true →
        Heap.load (Heap.store heap (Signature.data w) v) (Signature.constData w) = some v) := by
  refine ⟨(callAll_frame ms w heap).1, (callAll_frame ms w heap).2, ?_⟩
  intro a v ha hsome
  unfold Signature.data at ha
  unfold Heap.load Heap.store Signature.constData Signature.data const_cast_const
  simp [ha, hsome]

/-- Witness for C8, amended: a wrapper over the allocated address 1. -/
theorem C8_methods_leave_state_unchanged_witness :
    Heap.load
        (Heap.store (fun a => if a = 1 then some ⟨[65], [97], 0, 0⟩ else none)
          (Signature.data ⟨⟨some 1⟩⟩) ⟨[66], [98], 1, 60⟩)
        (Signature.constData ⟨⟨some 1⟩⟩) = some ⟨[66], [98], 1, 60⟩ :=
  (C8_methods_leave_state_unchanged ⟨⟨some 1⟩⟩
    (fun a => if a = 1 then some ⟨[65], [97], 0, 0⟩ else none)
    [Method.data, Method.constData]).2.2 1 ⟨[66], [98], 1, 60⟩ rfl rfl

/-- C9: on an index without an object database, `add` returns the not-ready
status `GIT_EBAREINDEX`, which is not zero, for every path and stage, and
leaves the index, hence its entries and `entryCount()`, unchanged. -/
theorem C9_add_without_odb_fails (hashFile : String → Except Int Nat) (idx : Index)
    (path : String) (stage : Int) (hbare : idx.odb = false) :
    (Index.add hashFile idx path stage).1 = GIT_EBAREINDEX ∧ GIT_EBAREINDEX ≠ 0 ∧
      (Index.add hashFile idx path stage).2 = idx ∧
      Index.entryCount (Index.add hashFile idx path stage).2 = Index.entryCount idx := by
  have hadd : Index.add hashFile idx path stage = (GIT_EBAREINDEX, idx) := by
    unfold Index.add
    simp [hbare]
  rw [hadd]
  exact ⟨rfl, by decide, rfl, rfl⟩

/-- Witness for C9: the index built from the path "idx1", after one insert. -/
theorem C9_add_without_odb_fails_witness :
    (Index.add (fun _ => Except.ok 7) (Index.insert (Index.fromPath "idx1") ⟨"a.txt", 0, 3⟩).2
        "b.txt" 0).1 = GIT_EBAREINDEX ∧ GIT_EBAREINDEX ≠ 0 ∧
      (Index.add (fun _ => Except.ok 7) (Index.insert (Index.fromPath "idx1") ⟨"a.txt", 0, 3⟩).2
        "b.txt" 0).2 = (Index.insert (Index.fromPath "idx1") ⟨"a.txt", 0, 3⟩).2 ∧
      Index.entryCount (Index.add (fun _ => Except.ok 7)
        (Index.insert (Index.fromPath "idx1") ⟨"a.txt", 0, 3⟩).2 "b.txt" 0).2 =
        Index.entryCount (Index.insert (Index.fromPath "idx1") ⟨"a.txt", 0, 3⟩).2 :=
  C9_add_without_odb_fails (fun _ => Except.ok 7)
    (Index.insert (Index.fromPath "idx1") ⟨"a.txt", 0, 3⟩).2 "b.txt" 0 rfl

/-- C10: after an `insert(e)` that returns 0, `find(e.path)` is a position
p >= 0 and `get(p)` is the entry `e`, path included; `find` of a path that no
entry has is -1; and `get(n)` is null for every n outside [0, entryCount()). -/
theorem C10_insert_find_get (idx : Index) (e : git_index_entry)
    (_hok : (Index.insert idx e).1 = 0) :
    (0 ≤ Index.find (Index.insert idx e).2 e.path ∧
      Index.get (Index.insert idx e).2 (Index.find (Index.insert idx e).2 e.path) = some e) ∧
    (∀ path : String, (∀ x ∈ idx.entries, x.path ≠ path) → Index.find idx path = -1) ∧
    (∀ n : Int, n < 0 ∨ (Index.entryCount idx : Int) ≤ n → Index.get idx n = none) := by
  refine ⟨?_, ?_, ?_⟩
  · obtain ⟨i, hi1, hi2⟩ := insert_found idx e
    have hfind : Index.find (Index.insert idx e).2 e.path = (i : Int) := by
      unfold Index.find
      rw [hi1]
    rw [hfind]
    refine ⟨Int.natCast_nonneg i, ?_⟩
    unfold Index.get
    have hneg : ¬ ((i : Int) < 0) := by omega
    rw [if_neg hneg, Int.toNat_natCast]
    exact hi2
  · intro path habsent
    unfold Index.find
    rw [firstWithPath_absent path idx.entries habsent]
  · intro n hn
    unfold Index.get
    by_cases hneg : n < 0
    · rw [if_pos hneg]
    · rw [if_neg hneg]
      apply List.getElem?_eq_none
      unfold Index.entryCount at hn
      omega

/-- Witness for C10: inserting the entry for "a.txt" into the fresh index
over "idx1". -/
theorem C10_insert_find_get_witness :
    (Index.insert (Index.fromPath "idx1") ⟨"a.txt", 0, 3⟩).1 = 0 ∧
      (0 ≤ Index.find (Index.insert (Index.fromPath "idx1") ⟨"a.txt", 0, 3⟩).2 "a.txt" ∧
        Index.get (Index.insert (Index.fromPath "idx1") ⟨"a.txt", 0, 3⟩).2
          (Index.find (Index.insert (Index.fromPath "idx1") ⟨"a.txt", 0, 3⟩).2 "a.txt")
          = some ⟨"a.txt", 0, 3⟩) ∧
      Index.find (Index.fromPath "idx1") "b.txt" = -1 ∧
      Index.get (Index.fromPath "idx1") 0 = none :=
  ⟨rfl,
    (C10_insert_find_get (Index.fromPath "idx1") ⟨"a.txt", 0, 3⟩ rfl).1,
    (C10_insert_find_get (Index.fromPath "idx1") ⟨"a.txt", 0, 3⟩ rfl).2.1 "b.txt"
      (by intro x hx; cases hx),
    (C10_insert_find_get (Index.fromPath "idx1") ⟨"a.txt", 0, 3⟩ rfl).2.2 0
      (Or.inr (by decide))⟩

end LibQGit2
